import Mathlib

/-!
Shallow embedding of the conversation orchestration engine of the
jecko-assistant repository: the streaming tool-call accumulator and tool
executor of `src/openai.ts` (`OpenAIClient.chat`, `executeToolCalls`,
`estimateTokenUsage`), the bounded agent loop of `src/modes/agent.ts`
(`AgentMode.execute`), the schema bridge of `src/utils/zodToOpenAI.ts`
(`zodSchemaToOpenAIProperty`, `zodSchemaToOpenAIFunction`), and the
conversation compactor (`ConversationCompactor.compact`).

External effects are made explicit: the provider stream is a list of
chunks, callbacks are an emitted event list, `JSON.parse` is an abstract
`String → Except String Json` parameter (only its success or failure, and
the parsed value it returns, matter to the embedded code), and a tool's
`execute` returns `Except String String` (a thrown error is the `error`
case, carrying the message).
-/

namespace Jecko

/-- A parsed JSON value, as produced by `JSON.parse`. -/
inductive Json where
  | null : Json
  | bool (b : Bool) : Json
  | num (n : Int) : Json
  | str (s : String) : Json
  | arr (elems : List Json) : Json
  | obj (fields : List (String × Json)) : Json
deriving Repr

/-- Role of a chat message (src/openai.ts `Message.role`). -/
inductive Role where
  | user | assistant | system | tool
deriving Repr, DecidableEq

/-- The `function` part of a raw tool call: name and argument text
(src/openai.ts, the accumulator record `{ name: '', arguments: '' }`). -/
structure ToolCallFunction where
  name : String
  arguments : String
deriving Repr, DecidableEq

/-- A raw (finalized or accumulating) tool call, as stored in
`accumulatedToolCalls[index]` in `OpenAIClient.chat`: `id` and `type` are
taken from the first delta seen for the index. -/
structure ToolCall where
  id : Option String
  type : Option String
  function : ToolCallFunction
deriving Repr, DecidableEq

/-- A chat message (src/openai.ts `Message`). -/
structure Message where
  role : Role
  content : String
  tool_call_id : Option String := none
  tool_calls : Option (List ToolCall) := none
  isInternal : Bool := false
  displayContent : Option String := none
deriving Repr, DecidableEq

/-- One streamed tool-call delta (`delta.tool_calls[i]` of a chunk): an
integer `index` plus optional id/type and partial name/argument text. -/
structure ToolCallDelta where
  index : Nat
  id : Option String := none
  type : Option String := none
  name : Option String := none
  arguments : Option String := none
deriving Repr, DecidableEq

/-- Append a delta's name/argument fragments to an accumulator record
(src/openai.ts lines 243-251).  The JS guards `if (toolCall.function?.name)`
skip an empty-string fragment, for which concatenation is the identity, so
appending `getD ""` is extensionally the same operation. -/
def applyFragments (tc : ToolCall) (d : ToolCallDelta) : ToolCall :=
  { tc with
    function :=
      { name := tc.function.name ++ d.name.getD ""
        arguments := tc.function.arguments ++ d.arguments.getD "" } }

/-- The fresh record created on first sight of an index
(src/openai.ts lines 235-241): id/type from the delta, empty name/arguments. -/
def freshRecord (d : ToolCallDelta) : ToolCall :=
  { id := d.id, type := d.type, function := { name := "", arguments := "" } }

/-- Process one tool-call delta against the accumulator map, kept as an
association list in insertion order (a JS object keyed by integers). -/
def accStep : List (Nat × ToolCall) → ToolCallDelta → List (Nat × ToolCall)
  | [], d => [(d.index, applyFragments (freshRecord d) d)]
  | (i, tc) :: rest, d =>
      if i = d.index then (i, applyFragments tc d) :: rest
      else (i, tc) :: accStep rest d

/-- Accumulate a whole stream of tool-call deltas, starting empty
(src/openai.ts `accumulatedToolCalls`). -/
def accumulateToolCalls (deltas : List ToolCallDelta) : List (Nat × ToolCall) :=
  deltas.foldl accStep []

/-- Insert into a key-sorted association list (ascending `Nat` key). -/
def insertByIndex (p : Nat × ToolCall) : List (Nat × ToolCall) → List (Nat × ToolCall)
  | [] => [p]
  | q :: rest => if p.1 ≤ q.1 then p :: q :: rest else q :: insertByIndex p rest

/-- Sort an association list by key, ascending. -/
def sortByIndex : List (Nat × ToolCall) → List (Nat × ToolCall)
  | [] => []
  | p :: rest => insertByIndex p (sortByIndex rest)

/-- `Object.values(accumulatedToolCalls)` (src/openai.ts line 267): a JS
object with integer-like keys enumerates them in ascending numeric order. -/
def objectValues (acc : List (Nat × ToolCall)) : List ToolCall :=
  (sortByIndex acc).map (·.2)

/-- In-order concatenation of the name fragments of a delta list. -/
def deltaNames (deltas : List ToolCallDelta) : String :=
  (deltas.filterMap (·.name)).foldr (· ++ ·) ""

/-- In-order concatenation of the argument fragments of a delta list. -/
def deltaArgs (deltas : List ToolCallDelta) : String :=
  (deltas.filterMap (·.arguments)).foldr (· ++ ·) ""

/-- Token usage counts (src/openai.ts `ChatResponse.usage`). -/
structure Usage where
  promptTokens : Nat
  completionTokens : Nat
  totalTokens : Nat
deriving Repr, DecidableEq

/-- A registered tool (src/utils/toolInfra.ts `Tool`): its `execute` either
returns a result string or throws (the `error` case carries the message). -/
structure Tool where
  name : String
  description : String := ""
  execute : Json → Except String String

/-- Tool lookup in the name-keyed map built by the `OpenAIClient`
constructor: successive `Map.set` calls make the last registration with a
given name win. -/
def toolsLookup (tools : List Tool) (name : String) : Option Tool :=
  tools.reverse.find? (fun t => t.name = name)

/-- One result of an executed tool call (src/openai.ts `toolCallResults`
entries). -/
structure ToolCallResult where
  name : String
  args : Json
  result : String

/-- The observable callback/execution trace of a `chat()` invocation with
streaming callbacks: `token` is `onToken`, `usageReport` is `onUsage`,
`toolCallStarted` is `onToolCall`, `executeStarted` marks the point where
`tool.execute` is invoked, `complete` is `onComplete` and `newMessage` is
`onNewMessage`. -/
inductive Event where
  | token (s : String)
  | usageReport (u : Usage)
  | toolCallStarted (name : String) (args : Json)
  | executeStarted (name : String)
  | newMessage
  | complete

/-- Whether an event is an `onUsage` invocation. -/
def Event.isUsage : Event → Bool
  | .usageReport _ => true
  | _ => false

/-- Whether an event is an `onToolCall` invocation. -/
def Event.isToolCallStarted : Event → Bool
  | .toolCallStarted _ _ => true
  | _ => false

/-- The body of the `for (const toolCall of toolCalls)` loop of
`executeToolCalls` (src/openai.ts lines 384-425), threading the
`toolCallResults` array and the emitted events: an unknown tool name is
skipped with a warning; otherwise `JSON.parse` of the argument text either
succeeds (then `onToolCall` fires and the tool executes; a thrown execution
error is caught, `onToolCall` fires again in the catch block, and an
`Error:`-prefixed result is pushed) or throws (then the catch block falls
back to empty args `{}`, fires `onToolCall`, and pushes the parse error). -/
def executeStep (tools : List Tool) (parse : String → Except String Json)
    (st : List ToolCallResult × List Event) (toolCall : ToolCall) :
    List ToolCallResult × List Event :=
  let toolName := toolCall.function.name
  match toolsLookup tools toolName with
  | none => st
  | some tool =>
    match parse toolCall.function.arguments with
    | .ok params =>
      match tool.execute params with
      | .ok result =>
          (st.1 ++ [{ name := toolName, args := params, result := result }],
           st.2 ++ [.toolCallStarted toolName params, .executeStarted toolName])
      | .error e =>
          (st.1 ++ [{ name := toolName, args := params, result := "Error: " ++ e }],
           st.2 ++ [.toolCallStarted toolName params, .executeStarted toolName,
                    .toolCallStarted toolName params])
    | .error e =>
        (st.1 ++ [{ name := toolName, args := Json.obj [], result := "Error: " ++ e }],
         st.2 ++ [.toolCallStarted toolName (Json.obj [])])

/-- The sequential execution loop of `executeToolCalls`. -/
def executeLoop (tools : List Tool) (parse : String → Except String Json)
    (toolCalls : List ToolCall) : List ToolCallResult × List Event :=
  toolCalls.foldl (executeStep tools parse) ([], [])

/-- What `executeToolCalls` returns, plus the events it emitted. -/
structure ExecOutcome where
  toolCallResults : List ToolCallResult
  messagesToAdd : List Message
  events : List Event

/-- `OpenAIClient.executeToolCalls` (src/openai.ts lines 367-447): run the
calls sequentially, then return one assistant message with empty content
carrying the raw `tool_calls` array, followed by one tool-role message per
raw call whose content is `toolCallResults[index]?.result ||
'Tool execution failed'` (JS `||`: an absent entry or an empty result
string both yield the placeholder) and whose `tool_call_id` is the call's
id. -/
def executeToolCalls (tools : List Tool) (parse : String → Except String Json)
    (toolCalls : List ToolCall) : ExecOutcome :=
  let executed := executeLoop tools parse toolCalls
  let toolCallResults := executed.1
  let events := executed.2
  let assistantToolCallMessage : Message :=
    { role := .assistant, content := "", tool_calls := some toolCalls }
  let toolResponseMessages : List Message :=
    toolCalls.mapIdx (fun index toolCall =>
      { role := .tool
        content :=
          match toolCallResults.get? index with
          | some r => if r.result = "" then "Tool execution failed" else r.result
          | none => "Tool execution failed"
        tool_call_id := toolCall.id })
  { toolCallResults := toolCallResults
    messagesToAdd := assistantToolCallMessage :: toolResponseMessages
    events := events }

/-- The agent-mode system instruction (src/openai.ts lines 144-168), with
the locale-formatted current date interpolated. -/
def agentSystemContent (currentDate : String) : String :=
  "You are Jecko, a helpful AI assistant operating in agent mode. Your goal is to complete the given task thoroughly by chaining multiple tools and analysis steps.\n\nCONTEXT INFORMATION:\n- Today's date: "
  ++ currentDate ++
  "\n- You have access to web search, URL scraping, file writing, and Todoist integration tools\n- You can create and manage execution plans to organize complex tasks\n\nIMPORTANT WORKFLOW:\n1. For complex tasks, ALWAYS start by using \"agent_plan_create\" to break down the request into clear steps\n2. Use \"agent_plan_update\" to mark steps as in_progress/completed and track your progress\n3. When the task is COMPLETELY finished, use \"agent_done\" to signal completion with a summary\n4. These agent planning tools (agent_plan_*, agent_done) are for YOUR organization, NOT external productivity tools like Todoist\n\nITERATION MANAGEMENT:\n- You have a maximum of 25 iterations to complete your task\n- You will be notified of remaining iterations in continuation prompts\n- Plan your work efficiently and prioritize the most important actions\n- When you have few iterations left, focus on completing your task and calling \"agent_done\"\n- On the final iteration, you MUST call \"agent_done\" to provide a summary\n\nCRITICAL TOOL USAGE: Use the function calling system to invoke tools - do NOT write tool calls as text. Call tools using the provided function calling interface, not by writing \"tool_name: \x7bparameters\x7d\" in your response.\n\nCRITICAL: Always explicitly call \"agent_done\" when you have fully accomplished the user's request. This prevents unnecessary cycling and clearly signals task completion. You can do analysis or thinking between tool calls - this won't end the conversation unless you call \"agent_done\".\n\nAlways continue using tools and gathering information until you have fully addressed the user's request. Don't stop after the first tool call - keep investigating, analyzing, and taking actions until the task is comprehensively complete."

/-- The plain chat-mode system instruction (src/openai.ts lines 169-175). -/
def chatSystemContent (currentDate : String) : String :=
  "You are Jecko, a helpful AI assistant. \n\nCONTEXT INFORMATION:\n- Today's date: "
  ++ currentDate ++
  "\n- You have access to web search, URL scraping, file writing, and Todoist integration tools\n\nUse tools when needed to provide accurate and up-to-date information."

/-- `OpenAIClient.estimateTokenUsage` (src/openai.ts lines 465-482): the
4-characters-per-token heuristic over the space-joined prompt contents and
the response text; `Math.ceil(n / 4)` on a natural number is `(n + 3) / 4`. -/
def estimateTokenUsage (messages : List Message) (responseContent : String) : Usage :=
  let promptText := String.intercalate " " (messages.map (·.content))
  let promptChars := promptText.length
  let responseChars := responseContent.length
  let promptTokens := (promptChars + 3) / 4
  let completionTokens := (responseChars + 3) / 4
  { promptTokens := promptTokens
    completionTokens := completionTokens
    totalTokens := promptTokens + completionTokens }

/-- One inbound stream chunk: an optional content delta, tool-call deltas,
and an optional usage summary (a terminal chunk). -/
structure Chunk where
  contentDelta : Option String := none
  toolCallDeltas : List ToolCallDelta := []
  usage : Option Usage := none

/-- The mutable state of the `for await (const chunk of stream)` loop of
`OpenAIClient.chat` (src/openai.ts lines 213-264). -/
structure StreamState where
  fullContent : String
  acc : List (Nat × ToolCall)
  usage : Option Usage
  events : List Event

/-- Process one chunk (src/openai.ts lines 224-264): a non-empty content
delta is appended and forwarded via `onToken` (the JS truthiness guard
`if (delta?.content)` skips an empty string); each tool-call delta feeds
the accumulator; a usage payload overwrites `usage` and fires `onUsage`. -/
def processChunk (st : StreamState) (chunk : Chunk) : StreamState :=
  let st :=
    match chunk.contentDelta with
    | some s =>
        if s = "" then st
        else { st with fullContent := st.fullContent ++ s, events := st.events ++ [Event.token s] }
    | none => st
  let st := { st with acc := chunk.toolCallDeltas.foldl accStep st.acc }
  match chunk.usage with
  | some u => { st with usage := some u, events := st.events ++ [Event.usageReport u] }
  | none => st

/-- Run the stream loop from the initial state. -/
def streamFold (chunks : List Chunk) : StreamState :=
  chunks.foldl processChunk { fullContent := "", acc := [], usage := none, events := [] }

/-- The structured result of one `chat()` round trip (src/openai.ts
`ChatResponse`). -/
structure ChatResponse where
  content : String
  toolCalls : Option (List ToolCallResult) := none
  usage : Option Usage := none
  messagesToAdd : Option (List Message) := none

/-- The mode-dependent system instruction prefixed to the caller's
messages (src/openai.ts lines 141-176). -/
def systemMessageFor (currentDate : String) (isAgentMode : Bool) : Message :=
  { role := .system
    content := if isAgentMode then agentSystemContent currentDate
               else chatSystemContent currentDate }

/-- The streaming path of `OpenAIClient.chat` (src/openai.ts lines
128-299), with the provider stream given as a list of chunks and the
callbacks recorded as an event list.  After the stream loop, the
accumulated tool calls are finalized in ascending index order; if any
exist, they are executed and `onComplete` fires after that finalization,
with the stream-supplied usage (possibly absent) returned as-is; otherwise
`onComplete` fires and, when the stream supplied no usage, an estimate is
computed and `onUsage` fires with it.  `useTools` only shapes the outbound
request, which the chunk list already abstracts. -/
def OpenAIClient.chat (tools : List Tool) (parse : String → Except String Json)
    (currentDate : String) (messages : List Message) (useTools : Bool := false)
    (isAgentMode : Bool := false) (chunks : List Chunk) : ChatResponse × List Event :=
  let systemMessage : Message := systemMessageFor currentDate isAgentMode
  let allMessages := systemMessage :: messages
  let st := streamFold chunks
  let toolCalls := objectValues st.acc
  if toolCalls.length > 0 then
    let toolResult := executeToolCalls tools parse toolCalls
    ({ content := if st.fullContent = "" then "No response content" else st.fullContent
       usage := st.usage
       toolCalls := some toolResult.toolCallResults
       messagesToAdd := some toolResult.messagesToAdd },
     st.events ++ toolResult.events ++ [.complete])
  else
    match st.usage with
    | none =>
        let usage := estimateTokenUsage allMessages st.fullContent
        ({ content := if st.fullContent = "" then "No response content" else st.fullContent
           usage := some usage },
         st.events ++ [.complete, .usageReport usage])
    | some u =>
        ({ content := if st.fullContent = "" then "No response content" else st.fullContent
           usage := some u },
         st.events ++ [.complete])

/-! The bounded agent loop of `AgentMode.execute` (src/modes/agent.ts).
One `client.chat` round trip is abstracted as a provider function from the
current message list to a `ChatResponse`; the loop itself is embedded
verbatim. -/

/-- `const maxIterations = 25` (src/modes/agent.ts line 41). -/
def maxIterations : Nat := 25

/-- The continuation prompt pushed after an iteration that produced tool
calls (src/modes/agent.ts lines 83-95), keyed on the remaining budget. -/
def continuationAfterTools (remainingIterations : Nat) : String :=
  if remainingIterations = 0 then
    "FINAL TURN: You must now complete your task and call agent_done with a summary. No more tool calls will be possible after this response."
  else if remainingIterations ≤ 1 then
    "You have only " ++ toString remainingIterations ++ " turn remaining. Please wrap up your task soon and call agent_done when complete. Continue with any final analysis or actions needed."
  else
    "You have " ++ toString remainingIterations ++ " turns remaining. Please continue with any additional analysis or actions needed based on the information gathered."

/-- The continuation prompt pushed after an iteration that produced no tool
calls but continues (src/modes/agent.ts lines 109-121). -/
def continuationAfterNoTools (remainingIterations : Nat) : String :=
  if remainingIterations = 0 then
    "FINAL TURN: You must now complete your task and call agent_done with a summary if your work is done. No more iterations will be possible after this response."
  else if remainingIterations ≤ 1 then
    "You have only " ++ toString remainingIterations ++ " turn remaining. If your analysis is complete, please call agent_done. Otherwise, continue with your final analysis or action."
  else
    "You have " ++ toString remainingIterations ++ " turns remaining. Please continue with your analysis or take the next action needed."

/-- The notice pushed when the loop ends with `iteration >= maxIterations`
(src/modes/agent.ts line 132). -/
def maxIterationsNotice : String := "\n[Agent mode reached maximum iterations limit]"

/-- The state carried by the `while` loop of `AgentMode.execute` when it
exits, plus a count of the `client.chat` calls performed. -/
structure AgentLoopState where
  responses : List String
  allToolCalls : List ToolCallResult
  iteration : Nat
  chatCalls : Nat

/-- The `while (iteration < maxIterations)` loop of `AgentMode.execute`
(src/modes/agent.ts lines 43-129), with `fuel` standing for
`maxIter - iteration` so that the recursion is structural: the loop guard
`iteration < maxIter` holds exactly when `fuel > 0` at every call site.
Each pass increments `iteration`, calls the provider once and pushes its
content; it exits on a first-iteration response with no `messagesToAdd`,
or when a `ToolCallResult` of this pass is named `agent_done` (checked
after the new messages and tool calls are appended); otherwise it pushes
either the new messages or the plain content as an assistant message,
then an internal continuation prompt, and loops. -/
def agentLoop (provider : List Message → ChatResponse) (maxIter : Nat) :
    Nat → Nat → List Message → List String → List ToolCallResult → Nat → AgentLoopState
  | 0, iteration, _, responses, allToolCalls, chatCalls =>
      { responses := responses, allToolCalls := allToolCalls
        iteration := iteration, chatCalls := chatCalls }
  | fuel + 1, iteration, currentMessages, responses, allToolCalls, chatCalls =>
      let iteration' := iteration + 1
      let result := provider currentMessages
      let responses' := responses ++ [result.content]
      let chatCalls' := chatCalls + 1
      if iteration' = 1 ∧ result.messagesToAdd.getD [] = [] then
        { responses := responses', allToolCalls := allToolCalls
          iteration := iteration', chatCalls := chatCalls' }
      else if result.messagesToAdd.getD [] ≠ [] then
        let currentMessages' := currentMessages ++ result.messagesToAdd.getD []
        let allToolCalls' := allToolCalls ++ result.toolCalls.getD []
        if (result.toolCalls.getD []).any (fun tc => tc.name = "agent_done") then
          { responses := responses', allToolCalls := allToolCalls'
            iteration := iteration', chatCalls := chatCalls' }
        else
          let remainingIterations := maxIter - iteration'
          let continuationPrompt := continuationAfterTools remainingIterations
          agentLoop provider maxIter fuel iteration'
            (currentMessages' ++
              [{ role := .user, content := continuationPrompt, isInternal := true }])
            responses' allToolCalls' chatCalls'
      else
        let currentMessages' :=
          currentMessages ++ [{ role := .assistant, content := result.content }]
        let remainingIterations := maxIter - iteration'
        let continuationPrompt := continuationAfterNoTools remainingIterations
        agentLoop provider maxIter fuel iteration'
          (currentMessages' ++
            [{ role := .user, content := continuationPrompt, isInternal := true }])
          responses' allToolCalls chatCalls'

/-- What `AgentMode.execute` returns, together with the loop internals the
theorems speak about: the content entries before and after the notice is
(possibly) appended, the final iteration counter, and the number of
`client.chat` calls performed. -/
structure AgentRunResult where
  content : String
  toolCalls : Option (List ToolCallResult)
  loopResponses : List String
  responses : List String
  iteration : Nat
  chatCalls : Nat

/-- `AgentMode.execute` (src/modes/agent.ts lines 9-139): previous messages
plus the user input seed the message list; the loop runs with
`iteration = 0` (so with `maxIterations` fuel); if the final iteration
reached `maxIterations` the notice is pushed; the returned content joins
every pushed entry with a blank line, and `toolCalls` is the merged list
when non-empty. -/
def AgentMode.execute (provider : List Message → ChatResponse)
    (previousMessages : List Message) (userInput : String) : AgentRunResult :=
  let messages := previousMessages ++ [{ role := .user, content := userInput }]
  let r := agentLoop provider maxIterations maxIterations 0 messages [] [] 0
  let responses :=
    if r.iteration ≥ maxIterations then r.responses ++ [maxIterationsNotice]
    else r.responses
  { content := String.intercalate "\n\n" responses
    toolCalls := if r.allToolCalls.length > 0 then some r.allToolCalls else none
    loopResponses := r.responses
    responses := responses
    iteration := r.iteration
    chatCalls := r.chatCalls }

/-! The schema bridge of src/utils/zodToOpenAI.ts.  A Zod schema tree is
embedded as `ZodType`; the `instanceof` dispatch of
`zodSchemaToOpenAIProperty` becomes a match on its constructors.  The
`description` metadata (read by `getZodDescription` and copied onto the
produced property) is not modeled: it never influences `type`, `required`
or `properties`. -/

/-- The Zod schema shapes `zodSchemaToOpenAIProperty` dispatches on:
object, string, number, boolean, array, enum, optional, default-valued and
union schemas, plus a catch-all for every other `z.Zod*` class (the
function's fallback).  A Zod union always has a first option, so `union`
carries it separately. -/
inductive ZodType where
  | object (shape : List (String × ZodType))
  | string
  | number
  | boolean
  | array (elem : ZodType)
  | enum (options : List String)
  | optional (inner : ZodType)
  | withDefault (inner : ZodType) (defaultValue : Json)
  | union (first : ZodType) (rest : List ZodType)
  | unsupported (ctorName : String)

/-- `fieldSchema instanceof z.ZodOptional`. -/
def ZodType.isOptional : ZodType → Bool
  | .optional _ => true
  | _ => false

/-- `fieldSchema instanceof z.ZodDefault`. -/
def ZodType.isDefault : ZodType → Bool
  | .withDefault _ _ => true
  | _ => false

/-- The `type` field of an `OpenAIProperty`: `string | string[]` in the
source; `Array.isArray(innerProperty.type)` becomes a match on this. -/
inductive PropertyType where
  | single (t : String)
  | union (ts : List String)
deriving Repr, DecidableEq

/-- The `OpenAIProperty` interface (src/utils/zodToOpenAI.ts lines 4-13),
minus the `description` metadata. -/
inductive OpenAIProperty where
  | mk (type : PropertyType)
       (enumVals : Option (List String))
       (items : Option OpenAIProperty)
       (properties : Option (List (String × OpenAIProperty)))
       (required : Option (List String))
       (additionalProperties : Option Bool)
       (defaultValue : Option Json)

/-- The `type` field. -/
def OpenAIProperty.type : OpenAIProperty → PropertyType
  | .mk t _ _ _ _ _ _ => t

/-- The `enum` field. -/
def OpenAIProperty.enumVals : OpenAIProperty → Option (List String)
  | .mk _ e _ _ _ _ _ => e

/-- The `items` field. -/
def OpenAIProperty.items : OpenAIProperty → Option OpenAIProperty
  | .mk _ _ i _ _ _ _ => i

/-- The `properties` field. -/
def OpenAIProperty.properties : OpenAIProperty → Option (List (String × OpenAIProperty))
  | .mk _ _ _ p _ _ _ => p

/-- The `required` field. -/
def OpenAIProperty.required : OpenAIProperty → Option (List String)
  | .mk _ _ _ _ r _ _ => r

/-- The `additionalProperties` field. -/
def OpenAIProperty.additionalProperties : OpenAIProperty → Option Bool
  | .mk _ _ _ _ _ a _ => a

/-- The `default` field. -/
def OpenAIProperty.defaultValue : OpenAIProperty → Option Json
  | .mk _ _ _ _ _ _ d => d

/-- `{ ...innerProperty, type: ... }`. -/
def OpenAIProperty.setType : OpenAIProperty → PropertyType → OpenAIProperty
  | .mk _ e i p r a d, t => .mk t e i p r a d

/-- `property.default = schema._def.defaultValue()`. -/
def OpenAIProperty.setDefault : OpenAIProperty → Json → OpenAIProperty
  | .mk t e i p r a _, d => .mk t e i p r a (some d)

/-- `zodSchemaToOpenAIProperty` (src/utils/zodToOpenAI.ts lines 25-152).
For an object: every key is pushed to `required`; an optional or
default-valued field is converted (unwrapping happens in the recursive
calls) and its `type` becomes a union with `"null"` appended; other fields
convert as-is.  String/number/boolean/array/enum map directly; optional
unwraps; default converts the inner schema and sets `default`; a union
converts its first option; anything unsupported degrades to a plain string
type with a logged warning. -/
def zodSchemaToOpenAIProperty : ZodType → OpenAIProperty
  | .object shape =>
      let properties := shape.attach.map (fun fld =>
        let key := fld.1.1
        let fieldSchema := fld.1.2
        if fieldSchema.isOptional || fieldSchema.isDefault then
          let innerProperty := zodSchemaToOpenAIProperty fieldSchema
          (key, innerProperty.setType
            (match innerProperty.type with
             | .union ts => .union (ts ++ ["null"])
             | .single t => .union [t, "null"]))
        else
          (key, zodSchemaToOpenAIProperty fieldSchema))
      .mk (.single "object") none none (some properties) (some (shape.map (·.1)))
        (some false) none
  | .string => .mk (.single "string") none none none none none none
  | .number => .mk (.single "number") none none none none none none
  | .boolean => .mk (.single "boolean") none none none none none none
  | .array elem =>
      .mk (.single "array") none (some (zodSchemaToOpenAIProperty elem)) none none none none
  | .enum options => .mk (.single "string") (some options) none none none none none
  | .optional inner => zodSchemaToOpenAIProperty inner
  | .withDefault inner defaultValue =>
      (zodSchemaToOpenAIProperty inner).setDefault defaultValue
  | .union first _ => zodSchemaToOpenAIProperty first
  | .unsupported _ => .mk (.single "string") none none none none none none
termination_by t => sizeOf t
decreasing_by
  all_goals simp_wf
  all_goals try omega
  all_goals
    (have h := List.sizeOf_lt_of_mem fld.2
     have h2 : sizeOf fld.1.2 < sizeOf fld.1 := by
       obtain ⟨a, b⟩ := fld.1
       simp [Prod.mk.sizeOf_spec]
       try omega
     omega)

/-- The function definition `zodSchemaToOpenAIFunction` builds
(src/utils/zodToOpenAI.ts lines 157-178): parameters are the converted
schema's properties (`|| {}`) and required list (`|| []`), with
`additionalProperties: false` and `strict: true`. -/
structure OpenAIFunctionDef where
  name : String
  description : String
  parametersProperties : List (String × OpenAIProperty)
  parametersRequired : List String
  additionalProperties : Bool
  strict : Bool

/-- The conversion the object branch of `zodSchemaToOpenAIProperty`
applies to a single field: optional and default-valued fields get their
converted property's type turned into a union with `"null"` appended;
other fields convert as-is. -/
def convertObjectField (fld : String × ZodType) : String × OpenAIProperty :=
  if fld.2.isOptional || fld.2.isDefault then
    (fld.1, (zodSchemaToOpenAIProperty fld.2).setType
      (match (zodSchemaToOpenAIProperty fld.2).type with
       | .union ts => .union (ts ++ ["null"])
       | .single t => .union [t, "null"]))
  else
    (fld.1, zodSchemaToOpenAIProperty fld.2)

/-- `zodSchemaToOpenAIFunction` (src/utils/zodToOpenAI.ts lines 157-178);
the source types `schema` as `z.ZodObject<any>`, so the `.object` case is
the intended argument shape. -/
def zodSchemaToOpenAIFunction (name description : String) (schema : ZodType) :
    OpenAIFunctionDef :=
  let parametersSchema := zodSchemaToOpenAIProperty schema
  { name := name
    description := description
    parametersProperties := parametersSchema.properties.getD []
    parametersRequired := parametersSchema.required.getD []
    additionalProperties := false
    strict := true }

/-! The conversation compactor (`ConversationCompactor.compact`).  Its
message type is the compactor's own (role/content/timestamp/toolName/
toolArgs); the summarization round trip `this.client.chat(..., false)` is
an oracle from the built message list to either the response content or a
thrown error, and `Date.now()` is the explicit `now` argument. -/

/-- The compactor's message role: user, assistant or tool. -/
inductive CRole where
  | user | assistant | tool
deriving Repr, DecidableEq

/-- The compactor's `Message` interface. -/
structure CMessage where
  role : CRole
  content : String
  timestamp : Nat
  toolName : Option String := none
  toolArgs : Option Json := none

/-- `CompactionResult`. -/
structure CompactionResult where
  compactedMessages : List CMessage
  tokensSaved : Nat
  originalCount : Nat
  compactedCount : Nat

/-- JS `arr.slice(0, -n)`: all but the last `n` elements — except that
`slice(0, -0)` is `slice(0, 0)`, the empty list. -/
def jsSliceDropLast (l : List α) (n : Nat) : List α :=
  if n = 0 then [] else l.take (l.length - n)

/-- JS `arr.slice(-n)`: the last `n` elements (all of them when `n`
exceeds the length) — except that `slice(-0)` is `slice(0)`, the whole
list. -/
def jsSliceTakeLast (l : List α) (n : Nat) : List α :=
  if n = 0 then l else l.drop (l.length - n)

/-- The fixed summarizer instruction. -/
def summarizerSystemContent : String :=
  "You are a conversation summarizer. Create a concise but comprehensive summary of the conversation that preserves key context, decisions, and information. Focus on what would be important for continuing the conversation."

/-- The exact two-message request `compact` issues to the client for
summarization: the fixed system instruction plus the role-labeled
transcript of the messages to compact. -/
def summarizationRequest (messages : List CMessage) (keepRecentCount : Nat) :
    List Message :=
  let conversationMessages := messages.filter (fun msg => msg.role ≠ CRole.tool)
  let messagesToCompact := jsSliceDropLast conversationMessages (keepRecentCount * 2)
  let conversationText := String.intercalate "\n\n"
    (messagesToCompact.map (fun msg =>
      (if msg.role = CRole.user then "User" else "Assistant") ++ ": " ++ msg.content))
  [ { role := .system, content := summarizerSystemContent },
    { role := .user, content := "Please summarize this conversation:\n\n" ++ conversationText } ]

/-- `estimateTokensSaved` (private helper of the compactor):
`Math.max(0, originalLength − summaryLength)` is natural subtraction, and
`Math.round(charsSaved / 4)` on a natural number is `(charsSaved + 2) / 4`
(JS rounds halves up). -/
def estimateTokensSaved (originalMessages : List CMessage) (summaryMessage : CMessage) :
    Nat :=
  let originalLength := originalMessages.foldl (fun sum msg => sum + msg.content.length) 0
  let summaryLength := summaryMessage.content.length
  let charsSaved := originalLength - summaryLength
  (charsSaved + 2) / 4

/-- `ConversationCompactor.compact` (src/unnamed/part_006 lines 34-112):
tool-role messages are filtered out of the conversational count; when that
count is at most `keepRecentCount * 2` (or nothing would be compacted) the
original list is returned untouched with zero savings; otherwise the older
conversational messages are summarized through the oracle — a thrown
summarization error also returns the original list untouched — and the
result is the tagged summary message, the last 5 tool messages, then the
recent conversational tail. -/
def ConversationCompactor.compact (chatOracle : List Message → Except String String)
    (now : Nat) (messages : List CMessage) (keepRecentCount : Nat := 3) :
    CompactionResult :=
  let conversationMessages := messages.filter (fun msg => msg.role ≠ CRole.tool)
  if conversationMessages.length ≤ keepRecentCount * 2 then
    { compactedMessages := messages, tokensSaved := 0
      originalCount := messages.length, compactedCount := messages.length }
  else
    let messagesToCompact := jsSliceDropLast conversationMessages (keepRecentCount * 2)
    let recentMessages := jsSliceTakeLast conversationMessages (keepRecentCount * 2)
    if messagesToCompact.length = 0 then
      { compactedMessages := messages, tokensSaved := 0
        originalCount := messages.length, compactedCount := messages.length }
    else
      match chatOracle (summarizationRequest messages keepRecentCount) with
      | .error _ =>
          { compactedMessages := messages, tokensSaved := 0
            originalCount := messages.length, compactedCount := messages.length }
      | .ok summaryContent =>
          let summaryMessage : CMessage :=
            { role := .assistant
              content := "[Conversation Summary]\n" ++ summaryContent
              timestamp := now }
          let toolMessages := messages.filter (fun msg => msg.role = CRole.tool)
          let recentToolMessages := jsSliceTakeLast toolMessages 5
          let compactedMessages := summaryMessage :: (recentToolMessages ++ recentMessages)
          { compactedMessages := compactedMessages
            tokensSaved := estimateTokensSaved messagesToCompact summaryMessage
            originalCount := messages.length
            compactedCount := compactedMessages.length }

/-! Concrete inputs used by counterexample and witness theorems. -/

/-- The spec's scenario fragmentation: one tool call at index 0 whose name
arrives as `["web_", "search"]` and whose arguments arrive as two JSON
fragments. -/
def scenarioSplitDeltas : List ToolCallDelta :=
  [ { index := 0, id := some "call_1", type := some "function",
      name := some "web_", arguments := some "\x7b\"query\":\"wea" },
    { index := 0, name := some "search", arguments := some "ther in Paris\"\x7d" } ]

/-- The same tool call delivered unfragmented. -/
def scenarioWholeDeltas : List ToolCallDelta :=
  [ { index := 0, id := some "call_1", type := some "function",
      name := some "web_search",
      arguments := some "\x7b\"query\":\"weather in Paris\"\x7d" } ]

/-- A provider whose run calls `agent_done` exactly on iteration 25: each
continuing iteration grows the message list by 2 (one `messagesToAdd`
entry plus the internal continuation prompt), so the list seen on
iteration k has length 2k − 1 when started from a single user message, and
length 49 marks iteration 25. -/
def doneOnFinalIterationProvider : List Message → ChatResponse := fun msgs =>
  if 49 ≤ msgs.length then
    { content := "finished"
      toolCalls := some [{ name := "agent_done", args := Json.obj [], result := "done" }]
      messagesToAdd := some [{ role := .assistant, content := "" }] }
  else
    { content := "working"
      toolCalls := some [{ name := "web_search", args := Json.obj [], result := "r" }]
      messagesToAdd := some [{ role := .assistant, content := "" }] }

/-- A stream that delivers one complete tool-call delta and never carries
usage counts. -/
def toolCallOnlyChunks : List Chunk :=
  [ { toolCallDeltas := [ { index := 0, id := some "call_7", type := some "function",
                            name := some "t", arguments := some "\x7b\x7d" } ] } ]

/-- A usage-free stream carrying only plain content. -/
def contentOnlyChunks : List Chunk :=
  [ { contentDelta := some "Hello!" } ]

/-- A parse function that always fails (stands in for `JSON.parse` where
the parsed value is irrelevant). -/
def failingParse : String → Except String Json := fun _ => Except.error "invalid"

/-- A parse function that always succeeds with the empty object. -/
def okParse : String → Except String Json := fun _ => Except.ok (Json.obj [])

/-- The `onToolCall`/execution events one attempted call contributes, per
the spec's reading of the loop body: an unregistered name contributes
nothing; a registered call whose arguments fail to parse contributes one
`onToolCall` invocation (with empty args); a registered call that parses
contributes `onToolCall` then the execution — and, when the execution
throws, one more `onToolCall` from the catch block. -/
def perCallEvents (tools : List Tool) (parse : String → Except String Json)
    (toolCall : ToolCall) : List Event :=
  match toolsLookup tools toolCall.function.name with
  | none => []
  | some tool =>
    match parse toolCall.function.arguments with
    | .ok params =>
      match tool.execute params with
      | .ok _ =>
          [.toolCallStarted toolCall.function.name params,
           .executeStarted toolCall.function.name]
      | .error _ =>
          [.toolCallStarted toolCall.function.name params,
           .executeStarted toolCall.function.name,
           .toolCallStarted toolCall.function.name params]
    | .error _ => [.toolCallStarted toolCall.function.name (Json.obj [])]

/-- The `ToolCallResult` one attempted call contributes: none for an
unregistered name, otherwise the success text or the `Error:`-prefixed
parse/execution error. -/
def perCallResult (tools : List Tool) (parse : String → Except String Json)
    (toolCall : ToolCall) : Option ToolCallResult :=
  match toolsLookup tools toolCall.function.name with
  | none => none
  | some tool =>
    match parse toolCall.function.arguments with
    | .ok params =>
      match tool.execute params with
      | .ok result => some { name := toolCall.function.name, args := params, result := result }
      | .error e =>
          some { name := toolCall.function.name, args := params, result := "Error: " ++ e }
    | .error e =>
        some { name := toolCall.function.name, args := Json.obj [], result := "Error: " ++ e }

/-- A registered tool whose execution always throws. -/
def throwingTool : Tool := { name := "boom", execute := fun _ => Except.error "kaput" }

/-- A registered tool that succeeds with the text `R`. -/
def echoTool : Tool := { name := "echo", execute := fun _ => Except.ok "R" }

/-- A registered tool that succeeds with the empty string. -/
def emptyResultTool : Tool := { name := "silent", execute := fun _ => Except.ok "" }

/-- A call to `throwingTool`. -/
def boomCall : ToolCall :=
  { id := some "call_1", type := some "function",
    function := { name := "boom", arguments := "\x7b\x7d" } }

/-- A call to `echoTool`. -/
def echoCall : ToolCall :=
  { id := some "call_2", type := some "function",
    function := { name := "echo", arguments := "\x7b\x7d" } }

/-- A call whose name matches no registered tool. -/
def unknownCall : ToolCall :=
  { id := some "call_0", type := some "function",
    function := { name := "nope", arguments := "\x7b\x7d" } }

/-- A call to `emptyResultTool`. -/
def silentCall : ToolCall :=
  { id := some "call_3", type := some "function",
    function := { name := "silent", arguments := "\x7b\x7d" } }

end Jecko

/-! Theorems. -/

namespace Jecko

/-- Peeling one delta off the in-order name concatenation. -/
theorem deltaNames_cons (d : ToolCallDelta) (ds : List ToolCallDelta) :
    deltaNames (d :: ds) = d.name.getD "" ++ deltaNames ds := by
  cases h : d.name <;> simp [deltaNames, List.filterMap_cons, h]

/-- Peeling one delta off the in-order argument concatenation. -/
theorem deltaArgs_cons (d : ToolCallDelta) (ds : List ToolCallDelta) :
    deltaArgs (d :: ds) = d.arguments.getD "" ++ deltaArgs ds := by
  cases h : d.arguments <;> simp [deltaArgs, List.filterMap_cons, h]

/-- Folding the accumulator step over deltas of a single index, starting
from one record of that index, appends all fragments to that record. -/
theorem foldl_accStep_one (i : Nat) (tc : ToolCall) (ds : List ToolCallDelta)
    (h : ∀ d ∈ ds, d.index = i) :
    ds.foldl accStep [(i, tc)] =
      [(i, { id := tc.id, type := tc.type,
             function := { name := tc.function.name ++ deltaNames ds,
                           arguments := tc.function.arguments ++ deltaArgs ds } })] := by
  induction ds generalizing tc with
  | nil => simp [deltaNames, deltaArgs]
  | cons d ds ih =>
      have hd : d.index = i := h d (by simp)
      have hrest : ∀ x ∈ ds, x.index = i := fun x hx => h x (by simp [hx])
      simp only [List.foldl_cons]
      rw [show accStep [(i, tc)] d = [(i, applyFragments tc d)] from by simp [accStep, hd]]
      rw [ih _ hrest]
      simp [applyFragments, deltaNames_cons, deltaArgs_cons, String.append_assoc]

/-- A whole single-index delta stream accumulates to one record holding
the in-order concatenations, with id and type from the first delta. -/
theorem accumulateToolCalls_single_index (i : Nat) (ds : List ToolCallDelta)
    (h : ds ≠ []) (hi : ∀ d ∈ ds, d.index = i) :
    accumulateToolCalls ds =
      [(i, { id := (ds.head h).id, type := (ds.head h).type,
             function := { name := deltaNames ds, arguments := deltaArgs ds } })] := by
  match ds with
  | d :: rest =>
      have hd : d.index = i := hi d (by simp)
      have hrest : ∀ x ∈ rest, x.index = i := fun x hx => hi x (by simp [hx])
      unfold accumulateToolCalls
      simp only [List.foldl_cons]
      rw [show accStep [] d = [(i, applyFragments (freshRecord d) d)] from by
        simp [accStep, hd]]
      rw [foldl_accStep_one i _ rest hrest]
      simp [applyFragments, freshRecord, deltaNames_cons, deltaArgs_cons]

/-- C1.  For every sequence of streamed tool-call deltas carrying the same
integer index, the accumulator record's final name (resp. arguments)
string is the in-arrival-order concatenation of the delta name
(resp. argument) fragments — the accumulator itself is parse-free, a pure
concatenation — and consequently two fragmentations of the same
name/argument text finalize to identical argument strings, on which any
parse function (applied only at stream end, in `executeToolCalls`) yields
identical values. -/
theorem c1_fragment_accumulation_is_concat (i : Nat)
    (ds1 ds2 : List ToolCallDelta) (h1 : ds1 ≠ []) (h2 : ds2 ≠ [])
    (hi1 : ∀ d ∈ ds1, d.index = i) (hi2 : ∀ d ∈ ds2, d.index = i)
    (hargs : deltaArgs ds1 = deltaArgs ds2) :
    accumulateToolCalls ds1 =
      [(i, { id := (ds1.head h1).id, type := (ds1.head h1).type,
             function := { name := deltaNames ds1, arguments := deltaArgs ds1 } })]
    ∧ (accumulateToolCalls ds1).map (fun p => p.2.function.arguments) =
      (accumulateToolCalls ds2).map (fun p => p.2.function.arguments)
    ∧ ∀ parse : String → Except String Json,
        (accumulateToolCalls ds1).map (fun p => parse p.2.function.arguments) =
        (accumulateToolCalls ds2).map (fun p => parse p.2.function.arguments) := by
  have e1 := accumulateToolCalls_single_index i ds1 h1 hi1
  have e2 := accumulateToolCalls_single_index i ds2 h2 hi2
  refine ⟨e1, ?_, ?_⟩
  · rw [e1, e2]
    simp [hargs]
  · intro parse
    rw [e1, e2]
    simp [hargs]

/-- Witness for C1: the spec's `web_search` scenario, fragmented in two
ways, reconstructs the same record with name `web_search` and the intact
JSON argument text. -/
theorem c1_witness :
    accumulateToolCalls scenarioSplitDeltas =
      [(0, { id := some "call_1", type := some "function",
             function := { name := "web_search",
                           arguments := "\x7b\"query\":\"weather in Paris\"\x7d" } })]
    ∧ (accumulateToolCalls scenarioSplitDeltas).map (fun p => p.2.function.arguments) =
      (accumulateToolCalls scenarioWholeDeltas).map (fun p => p.2.function.arguments) := by
  have h := c1_fragment_accumulation_is_concat 0 scenarioSplitDeltas scenarioWholeDeltas
    (by decide) (by decide) (by decide) (by decide) (by decide)
  exact ⟨h.1, h.2.1⟩

/-- Invariant of the agent loop: every pass increments the iteration
counter, performs exactly one chat call and pushes exactly one content
entry, and the counter cannot pass `iteration + fuel`. -/
theorem agentLoop_invariant (provider : List Message → ChatResponse) (maxIter : Nat) :
    ∀ (fuel iteration : Nat) (msgs : List Message) (responses : List String)
      (allToolCalls : List ToolCallResult) (chatCalls : Nat),
      (agentLoop provider maxIter fuel iteration msgs responses allToolCalls chatCalls).iteration
        ≤ iteration + fuel ∧
      iteration ≤
        (agentLoop provider maxIter fuel iteration msgs responses allToolCalls chatCalls).iteration ∧
      (agentLoop provider maxIter fuel iteration msgs responses allToolCalls chatCalls).chatCalls =
        chatCalls +
          ((agentLoop provider maxIter fuel iteration msgs responses allToolCalls chatCalls).iteration
            - iteration) ∧
      (agentLoop provider maxIter fuel iteration msgs responses allToolCalls chatCalls).responses.length =
        responses.length +
          ((agentLoop provider maxIter fuel iteration msgs responses allToolCalls chatCalls).iteration
            - iteration) := by
  intro fuel
  induction fuel with
  | zero =>
      intro iteration msgs responses allToolCalls chatCalls
      simp [agentLoop]
  | succ n ih =>
      intro iteration msgs responses allToolCalls chatCalls
      simp only [agentLoop]
      split
      · simp <;> omega
      · split
        · split
          · simp <;> omega
          · have h := ih (iteration + 1)
              (msgs ++ (provider msgs).messagesToAdd.getD [] ++
                [{ role := .user,
                   content := continuationAfterTools (maxIter - (iteration + 1)),
                   isInternal := true }])
              (responses ++ [(provider msgs).content])
              (allToolCalls ++ (provider msgs).toolCalls.getD []) (chatCalls + 1)
            simp only [List.length_append, List.length_cons, List.length_nil] at h ⊢
            omega
        · have h := ih (iteration + 1)
            (msgs ++ [{ role := .assistant, content := (provider msgs).content }] ++
              [{ role := .user,
                 content := continuationAfterNoTools (maxIter - (iteration + 1)),
                 isInternal := true }])
            (responses ++ [(provider msgs).content]) allToolCalls (chatCalls + 1)
          simp only [List.length_append, List.length_cons, List.length_nil] at h ⊢
          omega

/-- C2.  For every behavior of the provider and of the tools it reports
(including one that signals completion on iteration 1), `AgentMode.execute`
performs at most `maxIterations = 25` chat calls and returns, and its
returned content is the blank-line-separated concatenation of at most
`maxIterations + 1` pushed content entries. -/
theorem c2_agent_loop_bounded (provider : List Message → ChatResponse)
    (previousMessages : List Message) (userInput : String) :
    (AgentMode.execute provider previousMessages userInput).chatCalls ≤ maxIterations ∧
    (AgentMode.execute provider previousMessages userInput).responses.length ≤
      maxIterations + 1 ∧
    (AgentMode.execute provider previousMessages userInput).content =
      String.intercalate "\n\n"
        (AgentMode.execute provider previousMessages userInput).responses := by
  have h := agentLoop_invariant provider maxIterations maxIterations 0
    (previousMessages ++ [{ role := .user, content := userInput }]) [] [] 0
  simp only [List.length_nil, Nat.sub_zero, Nat.zero_add] at h
  unfold AgentMode.execute
  refine ⟨?_, ?_, rfl⟩
  · simp only []
    omega
  · simp only []
    split
    · simp only [List.length_append, List.length_cons, List.length_nil]
      omega
    · omega

/-- C3 counterexample.  A run of `AgentMode.execute` in which the provider
calls `agent_done` exactly on iteration 25 receives the completion signal
(an `agent_done` tool-call result is merged into the returned list) and
nevertheless carries the maximum-iterations notice as its last content
entry — refuting the claim that a run that receives the completion signal
never carries the exhaustion notice. -/
theorem c3_counterexample :
    ((AgentMode.execute doneOnFinalIterationProvider [] "task").toolCalls.getD []).any
        (fun tc => tc.name = "agent_done") = true
    ∧ (AgentMode.execute doneOnFinalIterationProvider [] "task").responses.getLast?
        = some maxIterationsNotice := by
  exact ⟨rfl, rfl⟩

/-- C3 (amended).  `AgentMode.execute` appends the maximum-iterations
notice to the visible content if and only if the iteration counter reaches
`maxIterations` — equivalently, the run performed all 25 chat calls —
regardless of whether the final iteration carried the `agent_done`
completion signal; a run that exits before iteration 25 never carries the
notice. -/
theorem c3_amended_notice_iff_all_iterations (provider : List Message → ChatResponse)
    (previousMessages : List Message) (userInput : String) :
    (AgentMode.execute provider previousMessages userInput).responses =
      (if (AgentMode.execute provider previousMessages userInput).chatCalls = maxIterations
       then (AgentMode.execute provider previousMessages userInput).loopResponses
              ++ [maxIterationsNotice]
       else (AgentMode.execute provider previousMessages userInput).loopResponses) := by
  have h := agentLoop_invariant provider maxIterations maxIterations 0
    (previousMessages ++ [{ role := .user, content := userInput }]) [] [] 0
  simp only [List.length_nil, Nat.sub_zero, Nat.zero_add] at h
  unfold AgentMode.execute
  simp only []
  split_ifs with h1 h2 h3
  · rfl
  · exact absurd (by omega) h2
  · exact absurd (by omega) h1
  · rfl

/-- Processing a chunk that carries no usage keeps `usage` empty. -/
theorem processChunk_usage_none (st : StreamState) (c : Chunk)
    (h1 : st.usage = none) (hc : c.usage = none) :
    (processChunk st c).usage = none := by
  unfold processChunk
  simp only [hc]
  cases hd : c.contentDelta with
  | none => simpa using h1
  | some s => by_cases hs : s = "" <;> simp [hs, h1]

/-- Processing a chunk that carries no usage emits no `onUsage` event. -/
theorem processChunk_events_no_usage (st : StreamState) (c : Chunk)
    (hc : c.usage = none) (h2 : ∀ e ∈ st.events, e.isUsage = false) :
    ∀ e ∈ (processChunk st c).events, e.isUsage = false := by
  unfold processChunk
  simp only [hc]
  cases hd : c.contentDelta with
  | none => simpa using h2
  | some s =>
      by_cases hs : s = ""
      · simpa [hs] using h2
      · simp only [if_neg hs]
        intro e he
        simp only [List.mem_append, List.mem_cons, List.not_mem_nil, or_false] at he
        rcases he with he | rfl
        · exact h2 e he
        · rfl

/-- A stream whose chunks never carry usage leaves the loop state with no
usage and emits no `onUsage` event, from any state already satisfying
that. -/
theorem foldl_processChunk_no_usage (chunks : List Chunk)
    (h : ∀ c ∈ chunks, c.usage = none) :
    ∀ st : StreamState, st.usage = none → (∀ e ∈ st.events, e.isUsage = false) →
      (chunks.foldl processChunk st).usage = none ∧
      ∀ e ∈ (chunks.foldl processChunk st).events, e.isUsage = false := by
  induction chunks with
  | nil => intro st h1 h2; exact ⟨h1, h2⟩
  | cons c cs ih =>
      intro st h1 h2
      have hc : c.usage = none := h c (by simp)
      have hrest : ∀ x ∈ cs, x.usage = none := fun x hx => h x (by simp [hx])
      simp only [List.foldl_cons]
      exact ih hrest _ (processChunk_usage_none st c h1 hc)
        (processChunk_events_no_usage st c hc h2)

/-- One pass of the tool-execution loop emits no `onUsage` event. -/
theorem executeStep_no_usage (tools : List Tool) (parse : String → Except String Json)
    (st : List ToolCallResult × List Event) (tc : ToolCall)
    (h : ∀ e ∈ st.2, e.isUsage = false) :
    ∀ e ∈ (executeStep tools parse st tc).2, e.isUsage = false := by
  intro x hx
  unfold executeStep at hx
  rcases htl : toolsLookup tools tc.function.name with _ | tool
  · simp only [htl] at hx
    exact h x hx
  · rcases hp : parse tc.function.arguments with err | params
    · simp only [htl, hp, List.mem_append, List.mem_cons, List.not_mem_nil, or_false] at hx
      rcases hx with hx | rfl
      · exact h x hx
      · rfl
    · rcases he : tool.execute params with err | r
      · simp only [htl, hp, he, List.mem_append, List.mem_cons, List.not_mem_nil,
          or_false] at hx
        rcases hx with hx | rfl | rfl | rfl
        · exact h x hx
        · rfl
        · rfl
        · rfl
      · simp only [htl, hp, he, List.mem_append, List.mem_cons, List.not_mem_nil,
          or_false] at hx
        rcases hx with hx | rfl | rfl
        · exact h x hx
        · rfl
        · rfl

/-- The tool-execution loop never emits an `onUsage` event. -/
theorem executeLoop_no_usage (tools : List Tool) (parse : String → Except String Json)
    (toolCalls : List ToolCall) :
    ∀ st : List ToolCallResult × List Event, (∀ e ∈ st.2, e.isUsage = false) →
      ∀ e ∈ (toolCalls.foldl (executeStep tools parse) st).2, e.isUsage = false := by
  induction toolCalls with
  | nil => intro st h; exact h
  | cons tc tcs ih =>
      intro st h
      simp only [List.foldl_cons]
      exact ih _ (executeStep_no_usage tools parse st tc h)

/-- C4 counterexample.  A streaming `chat()` invocation whose chunks never
carry usage counts but whose stream produced a tool call returns with no
usage at all and never invokes `onUsage` — refuting the claim that the
estimate is computed and `onUsage` invoked "including on invocations whose
stream produced tool calls". -/
theorem c4_counterexample :
    (∀ c ∈ toolCallOnlyChunks, c.usage = none)
    ∧ (streamFold toolCallOnlyChunks).acc.length = 1
    ∧ (OpenAIClient.chat [] failingParse "Wednesday, June 25, 2025" [] true false
        toolCallOnlyChunks).1.usage = none
    ∧ (OpenAIClient.chat [] failingParse "Wednesday, June 25, 2025" [] true false
        toolCallOnlyChunks).2.all (fun e => !e.isUsage) = true := by
  exact ⟨by decide, rfl, rfl, rfl⟩

/-- C4 (amended).  For every streaming `chat()` invocation in which no
chunk carries usage counts: when the stream produced no tool calls, chat
computes the estimated usage — `ceil(chars/4)` over the space-joined
contents of the system-prefixed prompt messages, and over the response
text, summed into `totalTokens` by `estimateTokenUsage` — returns it, and
invokes `onUsage` with it as the last callback before returning; when the
stream did produce tool calls, the response carries no usage and `onUsage`
is never invoked. -/
theorem c4_amended_estimate_without_tool_calls (tools : List Tool)
    (parse : String → Except String Json) (currentDate : String)
    (messages : List Message) (useTools isAgentMode : Bool) (chunks : List Chunk)
    (h : ∀ c ∈ chunks, c.usage = none) :
    (objectValues (streamFold chunks).acc = [] →
      (OpenAIClient.chat tools parse currentDate messages useTools isAgentMode chunks).1.usage =
        some (estimateTokenUsage (systemMessageFor currentDate isAgentMode :: messages)
          (streamFold chunks).fullContent) ∧
      (OpenAIClient.chat tools parse currentDate messages useTools isAgentMode chunks).2.getLast? =
        some (Event.usageReport (estimateTokenUsage
          (systemMessageFor currentDate isAgentMode :: messages)
          (streamFold chunks).fullContent)))
    ∧ (objectValues (streamFold chunks).acc ≠ [] →
      (OpenAIClient.chat tools parse currentDate messages useTools isAgentMode chunks).1.usage
        = none ∧
      ∀ e ∈ (OpenAIClient.chat tools parse currentDate messages useTools isAgentMode chunks).2,
        e.isUsage = false) := by
  have hs := foldl_processChunk_no_usage chunks h
    { fullContent := "", acc := [], usage := none, events := [] } rfl
    (by intro e he; simp at he)
  constructor
  · intro hempty
    unfold OpenAIClient.chat
    simp only [hempty, List.length_nil, gt_iff_lt, Nat.lt_irrefl, if_false]
    have hu : (streamFold chunks).usage = none := hs.1
    rw [hu]
    refine ⟨rfl, ?_⟩
    rw [show ((streamFold chunks).events ++
          [Event.complete,
           Event.usageReport (estimateTokenUsage
             (systemMessageFor currentDate isAgentMode :: messages)
             (streamFold chunks).fullContent)]) =
        ((streamFold chunks).events ++ [Event.complete]) ++
          [Event.usageReport (estimateTokenUsage
             (systemMessageFor currentDate isAgentMode :: messages)
             (streamFold chunks).fullContent)] from by simp]
    simp
  · intro hne
    unfold OpenAIClient.chat
    have hpos : 0 < (objectValues (streamFold chunks).acc).length :=
      List.length_pos.mpr hne
    simp only [gt_iff_lt, hpos, if_true, if_pos]
    refine ⟨hs.1, ?_⟩
    intro e he
    simp only [List.mem_append, List.mem_cons, List.not_mem_nil, or_false] at he
    rcases he with (he | he) | rfl
    · exact hs.2 e he
    · exact executeLoop_no_usage tools parse (objectValues (streamFold chunks).acc)
        ([], []) (by intro x hx; simp at hx) e he
    · rfl

/-- C4 witness: a usage-free stream with plain content gets the estimated
usage returned and reported as the final callback. -/
theorem c4_witness :
    (OpenAIClient.chat [] failingParse "Friday, October 10, 2025"
        [{ role := .user, content := "Hi" }] false false contentOnlyChunks).1.usage =
      some (estimateTokenUsage
        (systemMessageFor "Friday, October 10, 2025" false ::
          [{ role := .user, content := "Hi" }]) "Hello!")
    ∧ (OpenAIClient.chat [] failingParse "Friday, October 10, 2025"
        [{ role := .user, content := "Hi" }] false false contentOnlyChunks).2.getLast? =
      some (Event.usageReport (estimateTokenUsage
        (systemMessageFor "Friday, October 10, 2025" false ::
          [{ role := .user, content := "Hi" }]) "Hello!")) := by
  have h := (c4_amended_estimate_without_tool_calls [] failingParse
    "Friday, October 10, 2025" [{ role := .user, content := "Hi" }] false false
    contentOnlyChunks (by decide)).1 (by decide)
  exact ⟨h.1, h.2⟩

/-- One pass of the tool-execution loop appends exactly the per-call
result (when any) and the per-call events. -/
theorem executeStep_eq (tools : List Tool) (parse : String → Except String Json)
    (st : List ToolCallResult × List Event) (tc : ToolCall) :
    executeStep tools parse st tc =
      (st.1 ++ (perCallResult tools parse tc).toList,
       st.2 ++ perCallEvents tools parse tc) := by
  unfold executeStep perCallResult perCallEvents
  rcases htl : toolsLookup tools tc.function.name with _ | tool <;> simp only [htl]
  · simp
  · rcases hp : parse tc.function.arguments with err | params <;> simp only [hp]
    · rfl
    · rcases he : tool.execute params with err | r <;> simp only [he] <;> rfl

/-- The imperative execution loop equals the concatenation of the
per-call contributions, in stream-arrival order. -/
theorem foldl_executeStep_eq (tools : List Tool) (parse : String → Except String Json)
    (toolCalls : List ToolCall) :
    ∀ st : List ToolCallResult × List Event,
      toolCalls.foldl (executeStep tools parse) st =
        (st.1 ++ toolCalls.filterMap (perCallResult tools parse),
         st.2 ++ toolCalls.flatMap (perCallEvents tools parse)) := by
  induction toolCalls with
  | nil => intro st; simp
  | cons tc tcs ih =>
      intro st
      simp only [List.foldl_cons]
      rw [executeStep_eq, ih]
      simp only [List.filterMap_cons, List.flatMap_cons, List.append_assoc]
      cases perCallResult tools parse tc <;> simp

/-- The results `executeToolCalls` returns are exactly the per-call
results of the registered calls, in order (unknown tools are skipped). -/
theorem executeToolCalls_results (tools : List Tool) (parse : String → Except String Json)
    (toolCalls : List ToolCall) :
    (executeToolCalls tools parse toolCalls).toolCallResults =
      toolCalls.filterMap (perCallResult tools parse) := by
  show (executeLoop tools parse toolCalls).1 = _
  unfold executeLoop
  rw [foldl_executeStep_eq tools parse toolCalls ([], [])]
  simp

/-- C5 counterexample.  One attempted call to a registered tool whose
arguments parse but whose execution throws fires `onToolCall` twice (once
before execution and once more in the catch block) — refuting "exactly
once per attempted call whether argument parsing and execution succeed or
fail". -/
theorem c5_counterexample :
    toolsLookup [throwingTool] "boom" = some throwingTool
    ∧ (executeToolCalls [throwingTool] okParse [boomCall]).events.countP
        Event.isToolCallStarted = 2 := by
  exact ⟨rfl, rfl⟩

/-- C5 (amended).  The events `executeToolCalls` emits are the in-order
concatenation of per-call blocks: a call whose name matches no registered
tool contributes no `onToolCall` invocation; a registered call whose
arguments fail to parse contributes exactly one; a registered call whose
execution succeeds contributes exactly one, fired before the tool's
execute runs; and a registered call whose execution throws contributes
two — one before the execute and one more in the error handler. -/
theorem c5_on_tool_call_events (tools : List Tool) (parse : String → Except String Json)
    (toolCalls : List ToolCall) :
    (executeToolCalls tools parse toolCalls).events =
      toolCalls.flatMap (perCallEvents tools parse) := by
  show (executeLoop tools parse toolCalls).2 = _
  unfold executeLoop
  rw [foldl_executeStep_eq tools parse toolCalls ([], [])]
  simp

/-- A call whose name is registered always contributes a result,
whatever the parse and execution outcomes. -/
theorem perCallResult_isSome (tools : List Tool) (parse : String → Except String Json)
    (tc : ToolCall) (h : (toolsLookup tools tc.function.name).isSome = true) :
    (perCallResult tools parse tc).isSome = true := by
  unfold perCallResult
  rcases htl : toolsLookup tools tc.function.name with _ | tool
  · rw [htl] at h; simp at h
  · simp only [htl]
    rcases hp : parse tc.function.arguments with err | params <;> simp only [hp]
    · simp
    · rcases he : tool.execute params with err | r <;> simp [he]

/-- Indexing a `filterMap` that drops nothing recovers the pointwise
image: the `mapIdx`-with-lookup over a list whose every element maps to
`some` equals the direct `map`. -/
theorem mapIdx_filterMap_known {α β γ : Type} (g : α → Option β) (f : Option β → α → γ) :
    ∀ l : List α, (∀ a ∈ l, (g a).isSome = true) →
      l.mapIdx (fun idx a => f ((l.filterMap g).get? idx) a) =
        l.map (fun a => f (g a) a) := by
  intro l
  induction l with
  | nil => intro _; simp
  | cons a l ih =>
      intro h
      have ha : (g a).isSome = true := h a (by simp)
      rcases hga : g a with _ | b
      · rw [hga] at ha; simp at ha
      · have hrest : ∀ x ∈ l, (g x).isSome = true := fun x hx => h x (by simp [hx])
        simp only [List.mapIdx_cons, List.filterMap_cons, hga, List.get?_cons_zero,
          List.get?_cons_succ, List.map_cons]
        exact congrArg _ (ih hrest)

/-- C6 counterexample.  With a finalized list `[unknown call, echo call]`
the echo call produces result text `R`, yet its tool-role message carries
the placeholder while the unknown call's message carries `R` — the
contents are not the result text produced for the same call. -/
theorem c6_counterexample :
    (executeToolCalls [echoTool] okParse [unknownCall, echoCall]).toolCallResults.map
        (fun r => (r.name, r.result)) = [("echo", "R")]
    ∧ (executeToolCalls [echoTool] okParse [unknownCall, echoCall]).messagesToAdd.map
        (fun m => (m.tool_call_id, m.content)) =
      [(none, ""), (some "call_0", "R"), (some "call_2", "Tool execution failed")] := by
  exact ⟨rfl, rfl⟩

/-- C6 (amended).  For every finalized tool-call list all of whose names
match registered tools, `executeToolCalls` returns exactly one assistant
message with empty content carrying the raw `tool_calls` array, followed
by one tool-role message per call whose `tool_call_id` equals that call's
id and whose content is the result text produced for that same call (the
tool's success output or its error text) — with the placeholder
`Tool execution failed` substituted when that text is empty, since the
source falls back through `||`. -/
theorem c6_messages_when_all_known (tools : List Tool)
    (parse : String → Except String Json) (toolCalls : List ToolCall)
    (hne : toolCalls ≠ [])
    (hknown : ∀ tc ∈ toolCalls, (toolsLookup tools tc.function.name).isSome = true) :
    (executeToolCalls tools parse toolCalls).messagesToAdd =
      { role := .assistant, content := "", tool_calls := some toolCalls } ::
      toolCalls.map (fun tc =>
        { role := .tool
          content :=
            match perCallResult tools parse tc with
            | some r => if r.result = "" then "Tool execution failed" else r.result
            | none => "Tool execution failed"
          tool_call_id := tc.id }) := by
  have hloop : executeLoop tools parse toolCalls =
      (toolCalls.filterMap (perCallResult tools parse),
       toolCalls.flatMap (perCallEvents tools parse)) := by
    unfold executeLoop
    rw [foldl_executeStep_eq tools parse toolCalls ([], [])]
    simp
  unfold executeToolCalls
  simp only [hloop]
  congr 1
  exact mapIdx_filterMap_known (perCallResult tools parse)
    (fun o tc =>
      ({ role := .tool
         content :=
           match o with
           | some r => if r.result = "" then "Tool execution failed" else r.result
           | none => "Tool execution failed"
         tool_call_id := tc.id } : Message))
    toolCalls (fun a ha => perCallResult_isSome tools parse a (hknown a ha))

/-- C6 witness: two registered calls — one succeeding, one throwing —
produce the assistant header plus one tool message per call carrying that
call's own result text. -/
theorem c6_witness :
    (executeToolCalls [echoTool, throwingTool] okParse [echoCall, boomCall]).messagesToAdd =
      [ { role := .assistant, content := "", tool_calls := some [echoCall, boomCall] },
        { role := .tool, content := "R", tool_call_id := some "call_2" },
        { role := .tool, content := "Error: kaput", tool_call_id := some "call_1" } ] := by
  exact (c6_messages_when_all_known [echoTool, throwingTool] okParse [echoCall, boomCall]
    (by decide) (by decide)).trans rfl

/-- C10 counterexample.  A registered call whose tool returns the empty
string has its result present in the results list, yet its tool-role
message carries the placeholder `Tool execution failed` instead of that
(empty) result — the content is not taken from the results list at that
position. -/
theorem c10_counterexample :
    (executeToolCalls [emptyResultTool] okParse [silentCall]).toolCallResults.map
        (fun r => r.result) = [""]
    ∧ ((executeToolCalls [emptyResultTool] okParse [silentCall]).messagesToAdd.get? 1).map
        (fun m => m.content) = some "Tool execution failed" := by
  exact ⟨rfl, rfl⟩

/-- C10 (amended).  For every finalized tool-call list of length N,
`executeToolCalls` returns `messagesToAdd` of length exactly N + 1: the
leading assistant message retains all N raw calls (unknown names
included), and every raw call receives a tool-role message whose content
is taken positionally from the results list — which skips unknown tools —
except that an absent position or an empty result text yields the
placeholder `Tool execution failed`. -/
theorem c10_positional_tool_messages (tools : List Tool)
    (parse : String → Except String Json) (toolCalls : List ToolCall) :
    (executeToolCalls tools parse toolCalls).messagesToAdd.length = toolCalls.length + 1
    ∧ (executeToolCalls tools parse toolCalls).toolCallResults =
        toolCalls.filterMap (perCallResult tools parse)
    ∧ (executeToolCalls tools parse toolCalls).messagesToAdd =
        { role := .assistant, content := "", tool_calls := some toolCalls } ::
        toolCalls.mapIdx (fun index toolCall =>
          { role := .tool
            content :=
              match (executeToolCalls tools parse toolCalls).toolCallResults.get? index with
              | some r => if r.result = "" then "Tool execution failed" else r.result
              | none => "Tool execution failed"
            tool_call_id := toolCall.id }) := by
  refine ⟨?_, executeToolCalls_results tools parse toolCalls, rfl⟩
  show (_ :: toolCalls.mapIdx _).length = _
  simp [List.length_mapIdx]

/-- Setting a property's type leaves exactly that type. -/
theorem setType_type (p : OpenAIProperty) (t : PropertyType) : (p.setType t).type = t := by
  cases p
  rfl

/-- The object branch's `properties`: every field converted by
`convertObjectField`, in declaration order. -/
theorem zodObject_properties (shape : List (String × ZodType)) :
    (zodSchemaToOpenAIProperty (.object shape)).properties =
      some (shape.map convertObjectField) := by
  simp only [zodSchemaToOpenAIProperty]
  show some (shape.attach.map _) = _
  exact congrArg some (List.attach_map_val shape convertObjectField)

/-- The object branch's `required`: every key. -/
theorem zodObject_required (shape : List (String × ZodType)) :
    (zodSchemaToOpenAIProperty (.object shape)).required =
      some (shape.map (·.1)) := by
  simp only [zodSchemaToOpenAIProperty]
  rfl

/-- On an optional or default-valued field, `convertObjectField` keeps the
key and makes the type a union with `"null"` appended. -/
theorem convertObjectField_opt (fld : String × ZodType)
    (h : (fld.2.isOptional || fld.2.isDefault) = true) :
    convertObjectField fld =
      (fld.1, (zodSchemaToOpenAIProperty fld.2).setType
        (match (zodSchemaToOpenAIProperty fld.2).type with
         | .union ts => .union (ts ++ ["null"])
         | .single t => .union [t, "null"])) := by
  unfold convertObjectField
  rw [if_pos h]

/-- C7.  For every Zod object schema, `zodSchemaToOpenAIFunction` produces
a function schema in which every parameter key appears in the required
list (in declaration order), the properties are the per-field conversions,
and every optional (or default-valued) source field's property type is a
union that includes `"null"` rather than the field being omitted. -/
theorem c7_all_required_and_optional_nullable (name description : String)
    (shape : List (String × ZodType)) :
    (zodSchemaToOpenAIFunction name description (.object shape)).parametersRequired =
      shape.map (·.1)
    ∧ (zodSchemaToOpenAIFunction name description (.object shape)).parametersProperties =
      shape.map convertObjectField
    ∧ ∀ i (h : i < shape.length),
        ((shape.get ⟨i, h⟩).2.isOptional || (shape.get ⟨i, h⟩).2.isDefault) = true →
        ∃ prop,
          (zodSchemaToOpenAIFunction name description
              (.object shape)).parametersProperties.get? i =
            some ((shape.get ⟨i, h⟩).1, prop)
          ∧ ∃ ts, prop.type = PropertyType.union ts ∧ "null" ∈ ts := by
  have hreq : (zodSchemaToOpenAIFunction name description (.object shape)).parametersRequired
      = shape.map (·.1) := by
    unfold zodSchemaToOpenAIFunction
    dsimp only
    rw [zodObject_required]
    rfl
  have hprops : (zodSchemaToOpenAIFunction name description
      (.object shape)).parametersProperties = shape.map convertObjectField := by
    unfold zodSchemaToOpenAIFunction
    dsimp only
    rw [zodObject_properties]
    rfl
  refine ⟨hreq, hprops, ?_⟩
  intro i h hopt
  refine ⟨((zodSchemaToOpenAIProperty (shape.get ⟨i, h⟩).2).setType
    (match (zodSchemaToOpenAIProperty (shape.get ⟨i, h⟩).2).type with
     | .union ts => .union (ts ++ ["null"])
     | .single t => .union [t, "null"])), ?_, ?_⟩
  · rw [hprops, List.get?_map, List.get?_eq_get h]
    exact congrArg some (convertObjectField_opt _ hopt)
  · rw [setType_type]
    cases (zodSchemaToOpenAIProperty (shape.get ⟨i, h⟩).2).type with
    | union ts => exact ⟨ts ++ ["null"], rfl, by simp⟩
    | single t => exact ⟨[t, "null"], rfl, by simp⟩

/-- C7 witness: a schema with one plain string field and one optional
field — both keys required, the optional field's type a union containing
`"null"`. -/
theorem c7_witness :
    (zodSchemaToOpenAIFunction "t" "d"
        (.object [("q", .string), ("note", .optional .string)])).parametersRequired =
      ["q", "note"]
    ∧ ∃ prop,
        (zodSchemaToOpenAIFunction "t" "d"
            (.object [("q", .string), ("note", .optional .string)])).parametersProperties.get? 1 =
          some ("note", prop)
        ∧ ∃ ts, prop.type = PropertyType.union ts ∧ "null" ∈ ts := by
  have h := c7_all_required_and_optional_nullable "t" "d"
    [("q", .string), ("note", .optional .string)]
  exact ⟨h.1, h.2.2 1 (by decide) (by decide)⟩

/-- C8.  For every message list whose count of conversational (non
tool-role) messages is at most `keepRecentCount * 2`, `compact` returns
the original message list unchanged with `tokensSaved = 0` and
`originalCount = compactedCount`, whatever the summarizer does; hence
`compact` is idempotent on such lists. -/
theorem c8_compact_noop_below_threshold
    (chatOracle : List Message → Except String String) (now now2 : Nat)
    (messages : List CMessage) (keepRecentCount : Nat)
    (h : (messages.filter (fun msg => msg.role ≠ CRole.tool)).length ≤ keepRecentCount * 2) :
    ConversationCompactor.compact chatOracle now messages keepRecentCount =
      { compactedMessages := messages, tokensSaved := 0
        originalCount := messages.length, compactedCount := messages.length }
    ∧ ConversationCompactor.compact chatOracle now2
        (ConversationCompactor.compact chatOracle now messages keepRecentCount).compactedMessages
        keepRecentCount =
      ConversationCompactor.compact chatOracle now messages keepRecentCount := by
  have key : ∀ t : Nat,
      ConversationCompactor.compact chatOracle t messages keepRecentCount =
        { compactedMessages := messages, tokensSaved := 0
          originalCount := messages.length, compactedCount := messages.length } := by
    intro t
    unfold ConversationCompactor.compact
    dsimp only
    rw [if_pos h]
  refine ⟨key now, ?_⟩
  rw [key now]
  exact key now2

/-- C8 witness: a two-message conversation with the default keep count is
returned untouched with zero savings. -/
theorem c8_witness :
    ConversationCompactor.compact (fun _ => Except.error "no") 1000
        [{ role := CRole.user, content := "a", timestamp := 1 },
         { role := CRole.assistant, content := "b", timestamp := 2 }] 3 =
      { compactedMessages :=
          [{ role := CRole.user, content := "a", timestamp := 1 },
           { role := CRole.assistant, content := "b", timestamp := 2 }]
        tokensSaved := 0, originalCount := 2, compactedCount := 2 } := by
  exact (c8_compact_noop_below_threshold (fun _ => Except.error "no") 1000 1000
    [{ role := CRole.user, content := "a", timestamp := 1 },
     { role := CRole.assistant, content := "b", timestamp := 2 }] 3 (by decide)).1

/-- C9.  For every message list and `keepRecentCount`, if the
summarization call `compact` issues fails (throws), `compact` returns the
original message list unchanged with `tokensSaved = 0` — no message is
dropped or altered on the error path. -/
theorem c9_compact_failsafe_on_error
    (chatOracle : List Message → Except String String) (now : Nat)
    (messages : List CMessage) (keepRecentCount : Nat) (e : String)
    (hfail : chatOracle (summarizationRequest messages keepRecentCount) =
      Except.error e) :
    ConversationCompactor.compact chatOracle now messages keepRecentCount =
      { compactedMessages := messages, tokensSaved := 0
        originalCount := messages.length, compactedCount := messages.length } := by
  unfold ConversationCompactor.compact
  dsimp only
  split
  · rfl
  · split
    · rfl
    · rw [hfail]

/-- C9 witness: three conversational messages with `keepRecentCount = 1`
cross the threshold, the summarizer throws, and the original list comes
back untouched. -/
theorem c9_witness :
    ConversationCompactor.compact (fun _ => Except.error "boom") 5
        [{ role := CRole.user, content := "a", timestamp := 1 },
         { role := CRole.assistant, content := "b", timestamp := 2 },
         { role := CRole.user, content := "c", timestamp := 3 }] 1 =
      { compactedMessages :=
          [{ role := CRole.user, content := "a", timestamp := 1 },
           { role := CRole.assistant, content := "b", timestamp := 2 },
           { role := CRole.user, content := "c", timestamp := 3 }]
        tokensSaved := 0, originalCount := 3, compactedCount := 3 } := by
  exact c9_compact_failsafe_on_error (fun _ => Except.error "boom") 5
    [{ role := CRole.user, content := "a", timestamp := 1 },
     { role := CRole.assistant, content := "b", timestamp := 2 },
     { role := CRole.user, content := "c", timestamp := 3 }] 1 "boom" rfl

end Jecko
